import Mathlib

/-!
Shallow embedding of the HCFA OCR backend (src/ocr_hcfa.py, src/main.py,
src/models.py).

The four Python regular expressions used by the parser are embedded as
explicit scanners that mirror Python `re` semantics for those concrete
patterns: leftmost match, greedy quantifiers with backtracking, ASCII word
boundaries, and (for `findall`) non-overlapping resumption after each match.
Each scanner carries a fuel argument initialised to the length of the text;
every step consumes at least one character, so the fuel is never exhausted
before the scan is complete, and the definitions are structurally recursive
(hence they evaluate by `decide` / `rfl`).

Python `float` charge values are modelled as exact rationals: every charge
the code can parse matches `\d+\.\d{2}`, so it is non-negative, and the one
concrete value the spec tests (150.00) is exact in both representations.
-/

namespace HcfaOcr

/-- ASCII word character, as in Python re `\w` on the ASCII inputs used here. -/
def isWordChar (c : Char) : Bool := c.isAlphanum || c == '_'

/-- Python re `\b`: holds when exactly one side of the position is a word
character.  `prev` is the character before the position (`none` at the start
of the string); `rest` is the text from the position onward. -/
def atBoundary (prev : Option Char) (rest : List Char) : Bool :=
  let pw := match prev with | none => false | some c => isWordChar c
  let nw := match rest with | [] => false | c :: _ => isWordChar c
  pw != nw

/-- One attempt of `CPT_REGEX = \b(\d{5})\b` at the current position. -/
def cptMatchAt (prev : Option Char) (cs : List Char) : Option (List Char) :=
  if atBoundary prev cs then
    match cs with
    | a :: b :: c :: d :: e :: rest =>
      if a.isDigit && b.isDigit && c.isDigit && d.isDigit && e.isDigit
          && atBoundary (some e) rest
      then some [a, b, c, d, e] else none
    | _ => none
  else none

/-- Leftmost scan for `CPT_REGEX.search`. -/
def cptScan : Nat → Option Char → List Char → Option String
  | 0, _, _ => none
  | fuel + 1, prev, cs =>
    match cptMatchAt prev cs with
    | some m => some (String.mk m)
    | none =>
      match cs with
      | [] => none
      | c :: rest => cptScan fuel (some c) rest

/-- Model of `CPT_REGEX.search(line)`: the first 5-digit word-bounded token, if any. -/
def cptSearch (s : String) : Option String :=
  cptScan s.toList.length none s.toList

/-- First character class of `ICD_REGEX`: `[A-TV-Z]`. -/
def icdFirstChar (c : Char) : Bool :=
  (decide ('A' ≤ c) && decide (c ≤ 'T')) || (decide ('V' ≤ c) && decide (c ≤ 'Z'))

/-- Tail character class of `ICD_REGEX`: `[A-Z0-9.]`. -/
def icdClassChar (c : Char) : Bool := c.isUpper || c.isDigit || c == '.'

/-- Greedy `[A-Z0-9.]{1,6}` with backtracking against the trailing `\b`:
try `k` characters (largest count first) and succeed when all `k` are in the
class and a word boundary follows them. -/
def icdGreedy (cs : List Char) : Nat → Option Nat
  | 0 => none
  | k + 1 =>
    if (cs.take (k + 1)).length == k + 1 && (cs.take (k + 1)).all icdClassChar
        && atBoundary (cs.take (k + 1)).getLast? (cs.drop (k + 1))
    then some (k + 1)
    else icdGreedy cs k

/-- One attempt of `ICD_REGEX = \b([A-TV-Z][0-9][A-Z0-9.]{1,6})\b` at the
current position, returning the number of characters matched. -/
def icdMatchAt (prev : Option Char) (cs : List Char) : Option Nat :=
  if atBoundary prev cs then
    match cs with
    | c1 :: c2 :: rest =>
      if icdFirstChar c1 && c2.isDigit then
        match icdGreedy rest 6 with
        | some k => some (2 + k)
        | none => none
      else none
    | _ => none
  else none

/-- Leftmost non-overlapping scan for `ICD_REGEX.findall`. -/
def icdScan : Nat → Option Char → List Char → List String
  | 0, _, _ => []
  | fuel + 1, prev, cs =>
    match icdMatchAt prev cs with
    | some n =>
      String.mk (cs.take n) :: icdScan fuel (cs.take n).getLast? (cs.drop n)
    | none =>
      match cs with
      | [] => []
      | c :: rest => icdScan fuel (some c) rest

/-- Model of `ICD_REGEX.findall(line)`. -/
def icdFindall (s : String) : List String :=
  icdScan s.toList.length none s.toList

/-- One attempt of `\b(\d{2}|RT|LT|TC|26|50|51|52|53|57|59|76|77)\b`.  The
two-digit literal alternatives are subsumed by the `\d{2}` alternative tried
first by the Python engine. -/
def modMatchAt (prev : Option Char) (cs : List Char) : Option (List Char) :=
  if atBoundary prev cs then
    match cs with
    | a :: b :: rest =>
      if a.isDigit && b.isDigit && atBoundary (some b) rest then some [a, b]
      else if ((a == 'R' && b == 'T') || (a == 'L' && b == 'T')
          || (a == 'T' && b == 'C')) && atBoundary (some b) rest
      then some [a, b]
      else none
    | _ => none
  else none

/-- Leftmost non-overlapping scan for the modifier `findall`. -/
def modScan : Nat → Option Char → List Char → List String
  | 0, _, _ => []
  | fuel + 1, prev, cs =>
    match modMatchAt prev cs with
    | some m => String.mk m :: modScan fuel m.getLast? (cs.drop 2)
    | none =>
      match cs with
      | [] => []
      | c :: rest => modScan fuel (some c) rest

/-- The modifier `re.findall` on one line. -/
def modFindall (s : String) : List String :=
  modScan s.toList.length none s.toList

/-- Numeric value of an ASCII digit. -/
def digitVal (c : Char) : Nat := c.toNat - 48

/-- Value of a decimal digit string. -/
def natOfDigits (ds : List Char) : Nat :=
  ds.foldl (fun a c => a * 10 + digitVal c) 0

/-- One attempt of `(\d+\.\d{2})`: a maximal digit run, a dot, then two
digits (no trailing boundary required).  Backtracking the greedy `\d+` can
never help, because any shorter run is followed by a digit, not a dot. -/
def chargeMatchAt (cs : List Char) : Option (List Char × Char × Char) :=
  match cs with
  | c :: _ =>
    if c.isDigit then
      let ds := cs.takeWhile Char.isDigit
      match cs.drop ds.length with
      | '.' :: f1 :: f2 :: _ =>
        if f1.isDigit && f2.isDigit then some (ds, f1, f2) else none
      | _ => none
    else none
  | [] => none

/-- Leftmost scan for the charge `re.search`. -/
def chargeScan : Nat → List Char → Option (List Char × Char × Char)
  | 0, _ => none
  | fuel + 1, cs =>
    match chargeMatchAt cs with
    | some m => some m
    | none =>
      match cs with
      | [] => none
      | _ :: rest => chargeScan fuel rest

/-- Model of `float(charge_match.group(1)) if charge_match else 0.0`, with the float
value modelled exactly as a rational. -/
def chargeOf (s : String) : ℚ :=
  match chargeScan s.toList.length s.toList with
  | some (ds, f1, f2) =>
    (natOfDigits ds : ℚ) + ((digitVal f1 * 10 + digitVal f2 : Nat) : ℚ) / 100
  | none => 0

/-- Separator class `[/\-.]` of `DOB_REGEX`. -/
def sepOk (c : Char) : Bool := c == '/' || c == '-' || c == '.'

/-- Month alternation `(0[1-9]|1[0-2])`. -/
def monthOk (a b : Char) : Bool :=
  (a == '0' && decide ('1' ≤ b) && decide (b ≤ '9'))
    || (a == '1' && decide ('0' ≤ b) && decide (b ≤ '2'))

/-- Day alternation `(0[1-9]|[12][0-9]|3[01])`. -/
def dayOk (a b : Char) : Bool :=
  (a == '0' && decide ('1' ≤ b) && decide (b ≤ '9'))
    || ((a == '1' || a == '2') && b.isDigit)
    || (a == '3' && (b == '0' || b == '1'))

/-- One attempt of `DOB_REGEX` (a fixed-width 10-character pattern). -/
def dobMatchAt (prev : Option Char) (cs : List Char) : Option (List Char) :=
  if atBoundary prev cs then
    match cs with
    | m1 :: m2 :: s1 :: d1 :: d2 :: s2 :: y1 :: y2 :: y3 :: y4 :: rest =>
      if monthOk m1 m2 && sepOk s1 && dayOk d1 d2 && sepOk s2
          && ((y1 == '1' && y2 == '9') || (y1 == '2' && y2 == '0'))
          && y3.isDigit && y4.isDigit && atBoundary (some y4) rest
      then some [m1, m2, s1, d1, d2, s2, y1, y2, y3, y4] else none
    | _ => none
  else none

/-- Leftmost scan for `DOB_REGEX.search`. -/
def dobScan : Nat → Option Char → List Char → Option String
  | 0, _, _ => none
  | fuel + 1, prev, cs =>
    match dobMatchAt prev cs with
    | some m => some (String.mk m)
    | none =>
      match cs with
      | [] => none
      | c :: rest => dobScan fuel (some c) rest

/-- Model of `DOB_REGEX.search(dob_text)`, returning the whole matched token. -/
def dobSearch (s : String) : Option String :=
  dobScan s.toList.length none s.toList

/-- Model of `models.ClaimLine` (pydantic model). -/
structure ClaimLine where
  line_number : Int
  cpt : String
  modifiers : List String
  diagnosis_pointers : List String
  units : Int
  charges : ℚ
deriving Repr, DecidableEq

/-- Model of `models.Claim`.  The insertion-ordered Python dict `icd10` is modelled
as an association list in insertion order (its keys are pairwise distinct by
construction in the parser). -/
structure Claim where
  payer : String
  pos : String
  lines : List ClaimLine
  icd10 : List (String × String)
  patient_dob : Option String
deriving Repr, DecidableEq

/-- One element of the `cpt_entries` list built in `parse_hcfa_file`. -/
structure CptEntry where
  cpt : String
  modifiers : List String
  units : Int
  charges : ℚ
deriving Repr, DecidableEq

/-- Whitespace as stripped by Python `str.strip` (ASCII range). -/
def pySpace (c : Char) : Bool :=
  c == ' ' || c == '\t' || c == '\n' || c == '\r' || c == '\x0b' || c == '\x0c'

/-- Python `raw.strip()`: drop whitespace from both ends. -/
def pyStrip (s : String) : String :=
  String.mk (((s.toList.dropWhile pySpace).reverse.dropWhile pySpace).reverse)

/-- Python `" ".join(lines)`. -/
def joinSpace : List String → String
  | [] => ""
  | [s] => s
  | s :: rest => s ++ " " ++ joinSpace rest

/-- Python `split(".")` on a character list. -/
def splitDot : List Char → List (List Char)
  | [] => [[]]
  | c :: rest =>
    let r := splitDot rest
    if c == '.' then [] :: r
    else
      match r with
      | h :: t => (c :: h) :: t
      | [] => [[c]]

/-- Append an element unless already present: the `if icd not in icd_codes`
accumulation step, also the step function of `dict.fromkeys`
deduplication. -/
def insertNew (acc : List String) (x : String) : List String :=
  if x ∈ acc then acc else acc ++ [x]

/-- First-seen-order deduplication (`list(dict.fromkeys(mods))`). -/
def dedupFirst (xs : List String) : List String := xs.foldl insertNew []

/-- Body of the `for raw in bottom_lines` loop of `parse_hcfa_file`:
accumulate distinct ICD codes, and append one CPT entry when the line has a
5-digit token. -/
def processLine (acc : List String × List CptEntry) (raw : String) :
    List String × List CptEntry :=
  let line := pyStrip raw
  let icdAcc := (icdFindall line).foldl insertNew acc.1
  match cptSearch line with
  | some cpt =>
    (icdAcc, acc.2 ++ [⟨cpt, dedupFirst (modFindall line), 1, chargeOf line⟩])
  | none => (icdAcc, acc.2)

/-- Model of `for idx, item in enumerate(cpt_entries, 1)` building ClaimLines. -/
def buildLines (idx : Int) : List CptEntry → List ClaimLine
  | [] => []
  | e :: rest =>
    ⟨idx, e.cpt, e.modifiers, [], e.units, e.charges⟩ :: buildLines (idx + 1) rest

/-- Model of the dict comprehension over `enumerate(icd_codes)` assigning key
chr(65 + i) to the i-th code, as an
association list in enumeration order. -/
def buildIcdMap (i : Nat) : List String → List (String × String)
  | [] => []
  | code :: rest =>
    (String.singleton (Char.ofNat (65 + i)), code) :: buildIcdMap (i + 1) rest

/-- Text-level core of `parse_hcfa_file`: steps 2 to 4 after OCR, taking the
recognized text lines of the DOB region and of the bottom region.  The image
loading, cropping and OCR steps are external capabilities whose outputs are
exactly these two text-line sequences. -/
def extractClaim (dobLines bodyLines : List String) : Claim :=
  let acc := bodyLines.foldl processLine ([], [])
  { payer := ""
    pos := ""
    lines := buildLines 1 acc.2
    icd10 := buildIcdMap 0 acc.1
    patient_dob := dobSearch (joinSpace dobLines) }

/-- Per-line basic checks of `analyze_claim`: missing CPT, non-positive
units, negative charges, in that order. -/
def lineBasicIssues (l : ClaimLine) : List String :=
  (if l.cpt = "" then
    ["Line " ++ toString l.line_number ++ ": Missing CPT code."] else [])
    ++ (if l.units ≤ 0 then
      ["Line " ++ toString l.line_number ++ ": Units should be at least 1."] else [])
    ++ (if l.charges < 0 then
      ["Line " ++ toString l.line_number ++ ": Charges cannot be negative."] else [])

/-- Diagnosis-pointer check of `analyze_claim`, run per line when ICD codes
exist. -/
def pointerIssue (l : ClaimLine) : List String :=
  if l.diagnosis_pointers = [] then
    ["Line " ++ toString l.line_number
      ++ ": No diagnosis pointers linked, even though ICD-10 codes were found."]
  else []

/-- Issue list computed by `analyze_claim` (the `/audit` endpoint duplicates
exactly the same checks verbatim). -/
def analyzeIssues (c : Claim) : List String :=
  (if c.lines = [] then ["No claim lines were detected on the form."] else [])
    ++ c.lines.flatMap lineBasicIssues
    ++ (if c.icd10 = [] then ["No ICD-10 diagnosis codes were detected."]
        else c.lines.flatMap pointerIssue)
    ++ (if c.patient_dob = none then
      ["Patient date of birth could not be detected."] else [])

/-- Model of `analyze_claim`: it returns the submitted claim together with its issues. -/
def analyzeClaim (c : Claim) : Claim × List String := (c, analyzeIssues c)

/-- Error kinds surfaced by the endpoints. -/
inductive ApiError where
  | emptyFile
  | parseFailed
deriving Repr, DecidableEq

/-- The `/ocr-hcfa` endpoint: reject an empty upload before any parsing.
`runParse` abstracts `_run_parse` (image loading, OCR and parsing, or an
error); it is only invoked after the emptiness gate. -/
def ocrHcfaEndpoint (runParse : List Nat → String → Except ApiError Claim)
    (fileBytes : List Nat) (filename : String) : Except ApiError Claim :=
  if fileBytes = [] then Except.error ApiError.emptyFile
  else runParse fileBytes filename

/-- The `/audit` endpoint: the same empty-upload gate, then parse and run
the audit checks. -/
def auditEndpoint (runParse : List Nat → String → Except ApiError Claim)
    (fileBytes : List Nat) (filename : String) :
    Except ApiError (Claim × List String) :=
  if fileBytes = [] then Except.error ApiError.emptyFile
  else
    match runParse fileBytes filename with
    | Except.ok c => Except.ok (c, analyzeIssues c)
    | Except.error e => Except.error e

/-- Python `filename.lower().split(".")[-1]`. -/
def extOf (filename : String) : String :=
  String.mk ((splitDot (filename.toList.map Char.toLower)).getLastD [])

/-- The `ValueError` message raised by `_load_image_from_bytes`. -/
def unsupportedMsg : String := "Please upload a JPG or PNG image of the HCFA form."

/-- Dispatch logic of `_load_image_from_bytes`.  `decode` abstracts the
external raster decoding (`Image.open(...).convert("RGB")`); it is applied
only when the extension is one of jpg, jpeg, png. -/
def loadImage {α : Type} (decode : List Nat → α) (data : List Nat)
    (filename : String) : Except String α :=
  if extOf filename ∈ (["jpg", "jpeg", "png"] : List String)
  then Except.ok (decode data)
  else Except.error unsupportedMsg

/-- Distinct ICD tokens detected over all body lines, in first-seen order:
the value accumulated by the parser loop. -/
def detectedIcds (bodyLines : List String) : List String :=
  dedupFirst (bodyLines.flatMap (fun raw => icdFindall (pyStrip raw)))

/-- First CPT token of each body line that has one, in text-line order. -/
def lineCpts (bodyLines : List String) : List String :=
  bodyLines.filterMap (fun raw => cptSearch (pyStrip raw))

/-- Shape actually enforced by `ICD_REGEX` on a collected token: a letter in
A-T or V-Z, a digit, then one to six characters that are uppercase letters,
digits or dots. -/
def icdShapeOk (t : String) : Bool :=
  match t.toList with
  | c1 :: c2 :: rest =>
    icdFirstChar c1 && c2.isDigit && decide (1 ≤ rest.length)
      && decide (rest.length ≤ 6) && rest.all icdClassChar
  | _ => false

/-- Modelled from the words of the spec for claim C5: tail of the token
after its first two characters, namely one or two more alphanumerics with an
optional dot-delimited suffix of one to four alphanumerics. -/
def specIcdTail : List Char → Bool
  | [a] => a.isAlphanum
  | [a, b] => a.isAlphanum && b.isAlphanum
  | a :: '.' :: suf =>
    a.isAlphanum && decide (1 ≤ suf.length) && decide (suf.length ≤ 4)
      && suf.all Char.isAlphanum
  | a :: b :: '.' :: suf =>
    a.isAlphanum && b.isAlphanum && decide (1 ≤ suf.length)
      && decide (suf.length ≤ 4) && suf.all Char.isAlphanum
  | _ => false

/-- Modelled from the words of the spec for claim C5: one letter from A-T or
V-Z, then one alphanumeric character, then the tail of `specIcdTail`. -/
def specIcdShape (t : String) : Bool :=
  match t.toList with
  | c1 :: c2 :: rest => icdFirstChar c1 && c2.isAlphanum && specIcdTail rest
  | _ => false

/-! ### Supporting lemmas -/

theorem cptMatchAt_length {prev : Option Char} {cs m : List Char}
    (h : cptMatchAt prev cs = some m) : m.length = 5 := by
  unfold cptMatchAt at h
  split at h
  · split at h
    · split at h
      · cases h; rfl
      · exact absurd h (by simp)
    · exact absurd h (by simp)
  · exact absurd h (by simp)

theorem cptScan_succ (n : Nat) (prev : Option Char) (cs : List Char) :
    cptScan (n + 1) prev cs
      = (match cptMatchAt prev cs with
        | some m => some (String.mk m)
        | none =>
          match cs with
          | [] => none
          | c :: rest => cptScan n (some c) rest) := rfl

theorem cptScan_length :
    ∀ (fuel : Nat) (prev : Option Char) (cs : List Char) (t : String),
      cptScan fuel prev cs = some t → t.length = 5 := by
  intro fuel
  induction fuel with
  | zero => intro prev cs t h; simp [cptScan] at h
  | succ n ih =>
    intro prev cs t h
    rw [cptScan_succ] at h
    cases hm : cptMatchAt prev cs with
    | some m =>
      rw [hm] at h
      have h' : some (String.mk m) = some t := h
      have ht : String.mk m = t := by injection h'
      rw [← ht]
      have := cptMatchAt_length hm
      simpa using this
    | none =>
      rw [hm] at h
      cases cs with
      | nil => exact absurd h (by simp)
      | cons c rest => exact ih (some c) rest t h

theorem cptSearch_length {s t : String} (h : cptSearch s = some t) :
    t.length = 5 :=
  cptScan_length _ _ _ _ h

theorem cptSearch_ne_empty {s t : String} (h : cptSearch s = some t) :
    t ≠ "" := by
  intro he
  have := cptSearch_length h
  rw [he] at this
  simp at this

theorem chargeOf_nonneg (s : String) : 0 ≤ chargeOf s := by
  unfold chargeOf
  cases chargeScan s.toList.length s.toList with
  | none => simp
  | some m =>
    obtain ⟨ds, f1, f2⟩ := m
    simp only []
    positivity

theorem icdGreedy_spec :
    ∀ (j : Nat) {cs : List Char} {k : Nat}, icdGreedy cs j = some k →
      1 ≤ k ∧ k ≤ j ∧ k ≤ cs.length ∧ (cs.take k).all icdClassChar = true := by
  intro j
  induction j with
  | zero => intro cs k h; simp [icdGreedy] at h
  | succ n ih =>
    intro cs k h
    rw [icdGreedy] at h
    split at h
    · rename_i hcond
      cases h
      simp only [Bool.and_eq_true, beq_iff_eq] at hcond
      refine ⟨Nat.succ_le_succ (Nat.zero_le n), Nat.le_refl _, ?_, hcond.1.2⟩
      have hlen := hcond.1.1
      have : (cs.take (n + 1)).length = min (n + 1) cs.length := List.length_take _ _
      omega
    · have := ih h
      exact ⟨this.1, Nat.le_succ_of_le this.2.1, this.2.2⟩

theorem icdMatchAt_shape {prev : Option Char} {cs : List Char} {n : Nat}
    (h : icdMatchAt prev cs = some n) :
    icdShapeOk (String.mk (cs.take n)) = true := by
  cases cs with
  | nil =>
    unfold icdMatchAt at h
    split at h <;> simp at h
  | cons c1 cs' =>
    cases cs' with
    | nil =>
      unfold icdMatchAt at h
      split at h <;> simp at h
    | cons c2 rest =>
      unfold icdMatchAt at h
      by_cases hb : atBoundary prev (c1 :: c2 :: rest) = true
      · rw [if_pos hb] at h
        by_cases hfd : (icdFirstChar c1 && c2.isDigit) = true
        · have h' : (if icdFirstChar c1 && c2.isDigit then
              match icdGreedy rest 6 with
              | some k => some (2 + k)
              | none => none
            else none) = some n := h
          rw [if_pos hfd] at h'
          cases hg : icdGreedy rest 6 with
          | none => rw [hg] at h'; exact absurd h' (by simp)
          | some k =>
            rw [hg] at h'
            have hn : 2 + k = n := by injection h'
            obtain ⟨hk1, hk6, hklen, hkall⟩ := icdGreedy_spec 6 hg
            simp only [Bool.and_eq_true] at hfd
            rw [← hn]
            have htake : (c1 :: c2 :: rest).take (2 + k) = c1 :: c2 :: rest.take k := by
              have h2k : 2 + k = (k + 1) + 1 := by omega
              rw [h2k]
              rfl
            rw [htake]
            unfold icdShapeOk
            have hlist : (String.mk (c1 :: c2 :: rest.take k)).toList
                = c1 :: c2 :: rest.take k := rfl
            rw [hlist]
            simp only [Bool.and_eq_true, decide_eq_true_eq]
            have hlen : (rest.take k).length = k := by
              rw [List.length_take]; omega
            exact ⟨⟨⟨⟨hfd.1, hfd.2⟩, by omega⟩, by omega⟩, hkall⟩
        · have h' : (if icdFirstChar c1 && c2.isDigit then
              match icdGreedy rest 6 with
              | some k => some (2 + k)
              | none => none
            else none) = some n := h
          rw [if_neg hfd] at h'
          exact absurd h' (by simp)
      · rw [if_neg hb] at h
        exact absurd h (by simp)

theorem icdScan_succ (n : Nat) (prev : Option Char) (cs : List Char) :
    icdScan (n + 1) prev cs
      = (match icdMatchAt prev cs with
        | some k =>
          String.mk (cs.take k) :: icdScan n (cs.take k).getLast? (cs.drop k)
        | none =>
          match cs with
          | [] => []
          | c :: rest => icdScan n (some c) rest) := rfl

theorem icdScan_shape :
    ∀ (fuel : Nat) (prev : Option Char) (cs : List Char) (t : String),
      t ∈ icdScan fuel prev cs → icdShapeOk t = true := by
  intro fuel
  induction fuel with
  | zero => intro prev cs t h; simp [icdScan] at h
  | succ n ih =>
    intro prev cs t h
    rw [icdScan_succ] at h
    cases hm : icdMatchAt prev cs with
    | some k =>
      rw [hm] at h
      have h' : t ∈ String.mk (cs.take k)
          :: icdScan n ((cs.take k).getLast?) (cs.drop k) := h
      rcases List.mem_cons.mp h' with h1 | h2
      · rw [h1]; exact icdMatchAt_shape hm
      · exact ih _ _ t h2
    | none =>
      rw [hm] at h
      cases cs with
      | nil => simp at h
      | cons c rest => exact ih (some c) rest t h

theorem icdFindall_shape {s : String} {t : String}
    (h : t ∈ icdFindall s) : icdShapeOk t = true :=
  icdScan_shape _ _ _ t h

theorem insertNew_nodup {acc : List String} {x : String}
    (h : acc.Nodup) : (insertNew acc x).Nodup := by
  unfold insertNew
  split
  · exact h
  · rename_i hx
    rw [List.nodup_append]
    exact ⟨h, List.nodup_singleton x, by
      intro a ha hmem
      rw [List.mem_singleton] at hmem
      exact hx (hmem ▸ ha)⟩

theorem foldl_insertNew_nodup :
    ∀ (xs : List String) (acc : List String), acc.Nodup →
      (xs.foldl insertNew acc).Nodup := by
  intro xs
  induction xs with
  | nil => intro acc h; exact h
  | cons x rest ih => intro acc h; exact ih _ (insertNew_nodup h)

theorem dedupFirst_nodup (xs : List String) : (dedupFirst xs).Nodup :=
  foldl_insertNew_nodup xs [] List.nodup_nil

theorem mem_foldl_insertNew :
    ∀ (xs : List String) (acc : List String) (t : String),
      t ∈ xs.foldl insertNew acc → t ∈ acc ∨ t ∈ xs := by
  intro xs
  induction xs with
  | nil => intro acc t h; exact Or.inl h
  | cons x rest ih =>
    intro acc t h
    rcases ih _ t h with h1 | h2
    · unfold insertNew at h1
      split at h1
      · exact Or.inl h1
      · rcases List.mem_append.mp h1 with ha | hb
        · exact Or.inl ha
        · exact Or.inr (List.mem_cons.mpr (Or.inl (List.mem_singleton.mp hb)))
    · exact Or.inr (List.mem_cons.mpr (Or.inr h2))

theorem mem_dedupFirst {xs : List String} {t : String}
    (h : t ∈ dedupFirst xs) : t ∈ xs := by
  rcases mem_foldl_insertNew xs [] t h with h1 | h2
  · simp at h1
  · exact h2

/-- The CPT entry `parse_hcfa_file` builds for one body line, when the line
has a 5-digit token. -/
def entryOf (raw : String) : Option CptEntry :=
  (cptSearch (pyStrip raw)).map
    (fun cpt => ⟨cpt, dedupFirst (modFindall (pyStrip raw)), 1, chargeOf (pyStrip raw)⟩)

theorem foldl_processLine_snd :
    ∀ (b : List String) (acc : List String × List CptEntry),
      (b.foldl processLine acc).2 = acc.2 ++ b.filterMap entryOf := by
  intro b
  induction b with
  | nil => intro acc; simp
  | cons raw rest ih =>
    intro acc
    rw [List.foldl_cons, ih, List.filterMap_cons]
    unfold processLine entryOf
    cases h : cptSearch (pyStrip raw) with
    | some cpt => simp [h]
    | none => simp [h]

theorem foldl_processLine_fst :
    ∀ (b : List String) (acc : List String × List CptEntry),
      (b.foldl processLine acc).1
        = (b.flatMap (fun raw => icdFindall (pyStrip raw))).foldl insertNew acc.1 := by
  intro b
  induction b with
  | nil => intro acc; simp
  | cons raw rest ih =>
    intro acc
    rw [List.foldl_cons, ih, List.flatMap_cons, List.foldl_append]
    congr 1
    unfold processLine
    cases h : cptSearch (pyStrip raw) with
    | some cpt => simp [h]
    | none => simp [h]

theorem buildLines_map_cpt :
    ∀ (es : List CptEntry) (idx : Int),
      (buildLines idx es).map ClaimLine.cpt = es.map CptEntry.cpt := by
  intro es
  induction es with
  | nil => intro idx; rfl
  | cons e rest ih => intro idx; simp [buildLines, ih]

theorem buildLines_length :
    ∀ (es : List CptEntry) (idx : Int), (buildLines idx es).length = es.length := by
  intro es
  induction es with
  | nil => intro idx; rfl
  | cons e rest ih => intro idx; simp [buildLines, ih]

theorem buildLines_map_line_number :
    ∀ (es : List CptEntry) (s : Nat),
      (buildLines (s : Int) es).map ClaimLine.line_number
        = (List.range' s es.length).map (fun i => (i : Int)) := by
  intro es
  induction es with
  | nil => intro s; rfl
  | cons e rest ih =>
    intro s
    have hr : List.range' s (rest.length + 1) = s :: List.range' (s + 1) rest.length := rfl
    simp only [buildLines, List.map_cons, List.length_cons, hr]
    congr 1
    have : ((s : Int) + 1) = ((s + 1 : Nat) : Int) := by push_cast; ring
    rw [this]
    exact ih (s + 1)

theorem mem_buildLines :
    ∀ (es : List CptEntry) (idx : Int) (l : ClaimLine), l ∈ buildLines idx es →
      ∃ e ∈ es, l.cpt = e.cpt ∧ l.units = e.units ∧ l.charges = e.charges
        ∧ l.diagnosis_pointers = [] := by
  intro es
  induction es with
  | nil => intro idx l h; simp [buildLines] at h
  | cons e rest ih =>
    intro idx l h
    rw [buildLines] at h
    rcases List.mem_cons.mp h with h1 | h2
    · exact ⟨e, List.mem_cons_self e rest, by rw [h1], by rw [h1], by rw [h1], by rw [h1]⟩
    · obtain ⟨e', he', hp⟩ := ih (idx + 1) l h2
      exact ⟨e', List.mem_cons.mpr (Or.inr he'), hp⟩

theorem buildIcdMap_map_fst :
    ∀ (codes : List String) (i : Nat),
      (buildIcdMap i codes).map Prod.fst
        = (List.range' i codes.length).map
            (fun j => String.singleton (Char.ofNat (65 + j))) := by
  intro codes
  induction codes with
  | nil => intro i; rfl
  | cons code rest ih =>
    intro i
    have hr : List.range' i (rest.length + 1) = i :: List.range' (i + 1) rest.length := rfl
    simp only [buildIcdMap, List.map_cons, List.length_cons, hr]
    congr 1
    exact ih (i + 1)

theorem buildIcdMap_map_snd :
    ∀ (codes : List String) (i : Nat),
      (buildIcdMap i codes).map Prod.snd = codes := by
  intro codes
  induction codes with
  | nil => intro i; rfl
  | cons code rest ih => intro i; simp [buildIcdMap, ih]

theorem extractClaim_lines (d b : List String) :
    (extractClaim d b).lines = buildLines 1 (b.filterMap entryOf) := by
  unfold extractClaim
  simp only []
  rw [foldl_processLine_snd b ([], [])]
  rfl

theorem extractClaim_icd10 (d b : List String) :
    (extractClaim d b).icd10 = buildIcdMap 0 (detectedIcds b) := by
  unfold extractClaim
  simp only []
  rw [foldl_processLine_fst b ([], [])]
  rfl

theorem buildIcdMap_length :
    ∀ (codes : List String) (i : Nat), (buildIcdMap i codes).length = codes.length := by
  intro codes
  induction codes with
  | nil => intro i; rfl
  | cons code rest ih => intro i; simp [buildIcdMap, ih]

theorem extract_line_numbers (d b : List String) :
    (extractClaim d b).lines.map ClaimLine.line_number
      = (List.range' 1 (extractClaim d b).lines.length).map (fun i => (i : Int)) := by
  rw [extractClaim_lines, buildLines_length]
  have h := buildLines_map_line_number (b.filterMap entryOf) 1
  simp only [Nat.cast_one] at h
  exact h

theorem icdShapeOk_length {t : String} (h : icdShapeOk t = true) :
    3 ≤ t.length ∧ t.length ≤ 8 := by
  have hlen : t.length = t.toList.length := rfl
  unfold icdShapeOk at h
  cases ht : t.toList with
  | nil => rw [ht] at h; simp at h
  | cons c1 cs' =>
    cases cs' with
    | nil => rw [ht] at h; simp at h
    | cons c2 rest =>
      rw [ht] at h
      simp only [Bool.and_eq_true, decide_eq_true_eq] at h
      rw [hlen, ht]
      simp only [List.length_cons]
      omega

/-! ### Claim theorems -/

/-- Claim C1, counterexample: the same CPT code on two different body text
lines yields TWO ClaimLines, not one — the parser performs no cross-line
deduplication of CPT codes. -/
theorem claim_C1_counterexample :
    (extractClaim [] ["99213", "99213"]).lines.map ClaimLine.cpt
        = ["99213", "99213"]
      ∧ (extractClaim [] ["99213", "99213"]).lines.length = 2 := by
  constructor <;> decide

/-- Claim C1, amended: the extractor builds one ClaimLine per body text line
whose stripped text contains a word-bounded 5-digit token (the first such
token on the line becomes the cpt of that ClaimLine), numbered 1..N in text-line
order; duplicate CPT codes across lines are not collapsed. -/
theorem claim_C1_amended (d b : List String) :
    (extractClaim d b).lines.map ClaimLine.cpt = lineCpts b
      ∧ (extractClaim d b).lines.map ClaimLine.line_number
        = (List.range' 1 (extractClaim d b).lines.length).map (fun i => (i : Int)) := by
  constructor
  · rw [extractClaim_lines, buildLines_map_cpt]
    unfold lineCpts
    rw [List.map_filterMap]
    congr 1
    funext raw
    unfold entryOf
    cases h : cptSearch (pyStrip raw) <;> simp [h]
  · exact extract_line_numbers d b

/-- Claim C2: the icd10 mapping of an extracted Claim has keys that are
exactly the consecutive characters chr(65 + i) starting at "A", its entries
pair the i-th distinct detected ICD token (in first-seen order) with key
chr(65 + i), its size equals the number of distinct ICD tokens detected, and
ClaimLine.line_number values are contiguous starting at 1 in extraction
order. -/
theorem claim_C2 (d b : List String) :
    (extractClaim d b).icd10.map Prod.fst
        = (List.range (extractClaim d b).icd10.length).map
            (fun i => String.singleton (Char.ofNat (65 + i)))
      ∧ (extractClaim d b).icd10.map Prod.snd = detectedIcds b
      ∧ (extractClaim d b).icd10.length = (detectedIcds b).length
      ∧ (extractClaim d b).lines.map ClaimLine.line_number
        = (List.range' 1 (extractClaim d b).lines.length).map (fun i => (i : Int)) := by
  have hicd := extractClaim_icd10 d b
  refine ⟨?_, ?_, ?_, extract_line_numbers d b⟩
  · rw [hicd, buildIcdMap_length, buildIcdMap_map_fst,
      List.range_eq_range' (detectedIcds b).length]
  · rw [hicd, buildIcdMap_map_snd]
  · rw [hicd, buildIcdMap_length]

/-- Claim C3: for a Claim with no lines and no ICD codes, the audit yields
exactly the "no claim lines" and "no diagnosis codes" issues in that order
when a DOB is present, with the DOB issue appended third exactly when the
DOB is absent.  The audit is a total function, so it never fails. -/
theorem claim_C3 (c : Claim) (h1 : c.lines = []) (h2 : c.icd10 = []) :
    (c.patient_dob ≠ none →
        analyzeIssues c = ["No claim lines were detected on the form.",
          "No ICD-10 diagnosis codes were detected."])
      ∧ (c.patient_dob = none →
        analyzeIssues c = ["No claim lines were detected on the form.",
          "No ICD-10 diagnosis codes were detected.",
          "Patient date of birth could not be detected."]) := by
  constructor
  · intro hd
    unfold analyzeIssues
    rw [if_pos h1, if_pos h2, if_neg hd, h1]
    rfl
  · intro hd
    unfold analyzeIssues
    rw [if_pos h1, if_pos h2, if_pos hd, h1]
    rfl

/-- Witness for C3 at a concrete claim with a present DOB. -/
theorem claim_C3_witness :
    analyzeIssues ⟨"", "", [], [], some "04/12/1985"⟩
      = ["No claim lines were detected on the form.",
        "No ICD-10 diagnosis codes were detected."] :=
  (claim_C3 ⟨"", "", [], [], some "04/12/1985"⟩ rfl rfl).1 (by simp)

/-- Claim C4, counterexample: a filename with a PDF extension does not
succeed — the loader raises the unsupported-format ValueError for PDFs, and
likewise for TIFFs; only jpg/jpeg/png are decoded. -/
theorem claim_C4_counterexample :
    loadImage (fun (_ : List Nat) => Unit.unit) [] "form.pdf"
        = Except.error unsupportedMsg
      ∧ loadImage (fun (_ : List Nat) => Unit.unit) [] "scan.tiff"
        = Except.error unsupportedMsg := by
  constructor <;> rfl

/-- Claim C4, amended: the loader fails with the unsupported-format error
exactly when the lower-cased last dot-separated extension of the filename is
not one of jpg, jpeg, png; PDFs and TIFFs are therefore rejected, never
rendered, and supported extensions are decoded directly. -/
theorem claim_C4_amended {α : Type} (decode : List Nat → α) (data : List Nat)
    (filename : String) :
    loadImage decode data filename = Except.error unsupportedMsg
      ↔ extOf filename ∉ (["jpg", "jpeg", "png"] : List String) := by
  unfold loadImage
  by_cases h : extOf filename ∈ (["jpg", "jpeg", "png"] : List String)
  · rw [if_pos h]; simp [h]
  · rw [if_neg h]; simp [h]

/-- Claim C5, counterexample: the token "AA1" matches the shape stated by
the spec (letter in A-T, one alphanumeric, one more alphanumeric) yet the
code collects nothing from it — ICD_REGEX requires the second character to
be a digit. -/
theorem claim_C5_counterexample :
    specIcdShape "AA1" = true ∧ icdFindall "AA1" = []
      ∧ detectedIcds ["AA1"] = [] :=
  ⟨by decide, by decide, by decide⟩

/-- Claim C5, amended: every collected token starts with a letter in A-T or
V-Z followed by a DIGIT and then one to six characters drawn from uppercase
letters, digits and dots; hence its length is between 3 and 8 (so at least
3, as the claim states), and the collected codes are deduplicated in
first-seen order (no duplicates remain). -/
theorem claim_C5_amended (s : String) (b : List String) :
    (∀ t ∈ icdFindall s, icdShapeOk t = true ∧ 3 ≤ t.length ∧ t.length ≤ 8)
      ∧ (detectedIcds b).Nodup := by
  constructor
  · intro t ht
    have hs := icdFindall_shape ht
    have hb := icdShapeOk_length hs
    exact ⟨hs, hb.1, hb.2⟩
  · exact dedupFirst_nodup _

/-- Witness for C5 at the concrete token "M25.511". -/
theorem claim_C5_witness :
    icdShapeOk "M25.511" = true ∧ 3 ≤ ("M25.511" : String).length
      ∧ ("M25.511" : String).length ≤ 8 :=
  (claim_C5_amended "M25.511" []).1 "M25.511" (by decide)

/-- Claim C6: on the single body line "99213 25 LT 150.00" extraction yields
exactly one ClaimLine with cpt "99213", modifiers containing "25" and "LT"
in that order (the full modifier list is ["25", "LT", "00"]; the trailing
"00" is the boundary-matched cents of the charge), and charges 150.00
(exact in both the float and the rational model). -/
theorem claim_C6 (dobLines : List String) :
    (extractClaim dobLines ["99213 25 LT 150.00"]).lines
        = [⟨1, "99213", ["25", "LT", "00"], [], 1, 150⟩]
      ∧ List.Sublist (["25", "LT"] : List String) ["25", "LT", "00"] := by
  constructor
  · have hch : chargeOf "99213 25 LT 150.00" = 150 := by
      show ((150 : Nat) : ℚ) + (((0 : Nat) : ℚ)) / 100 = 150
      norm_num
    have hl : (extractClaim dobLines ["99213 25 LT 150.00"]).lines
        = [⟨1, "99213", ["25", "LT", "00"], [], 1,
            chargeOf "99213 25 LT 150.00"⟩] := rfl
    rw [hl, hch]
  · exact List.sublist_append_left ["25", "LT"] ["00"]

/-- Claim C7: a zero-byte upload is rejected with the empty-input error by
both file endpoints before `runParse` (image loading, OCR, parsing) is ever
invoked — the result does not depend on `runParse` at all. -/
theorem claim_C7 (runParse : List Nat → String → Except ApiError Claim)
    (filename : String) :
    ocrHcfaEndpoint runParse [] filename = Except.error ApiError.emptyFile
      ∧ auditEndpoint runParse [] filename = Except.error ApiError.emptyFile :=
  ⟨rfl, rfl⟩

/-- Claim C8: evaluate-claim returns the submitted Claim unchanged in every
field, alongside the derived issue list — nothing is written back. -/
theorem claim_C8 (c : Claim) :
    (analyzeClaim c).1.payer = c.payer ∧ (analyzeClaim c).1.pos = c.pos
      ∧ (analyzeClaim c).1.lines = c.lines
      ∧ (analyzeClaim c).1.icd10 = c.icd10
      ∧ (analyzeClaim c).1.patient_dob = c.patient_dob
      ∧ (analyzeClaim c).2 = analyzeIssues c :=
  ⟨rfl, rfl, rfl, rfl, rfl, rfl⟩

/-- Claim C9: extraction is deterministic — identical DOB-zone text and
identical body text lines produce equal Claims in every field. -/
theorem claim_C9 (d1 d2 b1 b2 : List String) (hd : d1 = d2) (hb : b1 = b2) :
    extractClaim d1 b1 = extractClaim d2 b2 := by
  rw [hd, hb]

/-- Witness for C9 at concrete identical inputs. -/
theorem claim_C9_witness :
    extractClaim ["04/12/1985"] ["99213"] = extractClaim ["04/12/1985"] ["99213"] :=
  claim_C9 ["04/12/1985"] ["04/12/1985"] ["99213"] ["99213"] rfl rfl

/-- Claim C10: every parser-produced ClaimLine has units 1, non-negative
charges and empty diagnosis pointers (pointer policy (a)); its basic audit
checks (missing CPT, non-positive units, negative charges) all stay silent,
and whenever the icd10 map is non-empty the "no diagnosis pointers linked"
issue fires for that line. -/
theorem claim_C10 (d b : List String) :
    ∀ l ∈ (extractClaim d b).lines,
      l.units = 1 ∧ 0 ≤ l.charges ∧ l.diagnosis_pointers = []
        ∧ lineBasicIssues l = []
        ∧ ((extractClaim d b).icd10 ≠ [] →
            ("Line " ++ toString l.line_number
                ++ ": No diagnosis pointers linked, even though ICD-10 codes were found.")
              ∈ analyzeIssues (extractClaim d b)) := by
  intro l hl
  have hl' := hl
  rw [extractClaim_lines] at hl'
  obtain ⟨e, he, hcpt, hunits, hcharges, hptr⟩ := mem_buildLines _ _ _ hl'
  rw [List.mem_filterMap] at he
  obtain ⟨raw, hraw, hent⟩ := he
  unfold entryOf at hent
  cases hs : cptSearch (pyStrip raw) with
  | none => rw [hs] at hent; simp at hent
  | some cpt =>
    rw [hs] at hent
    simp only [Option.map_some'] at hent
    have he' : e = ⟨cpt, dedupFirst (modFindall (pyStrip raw)), 1, chargeOf (pyStrip raw)⟩ := by
      injection hent with hinj
      exact hinj.symm
    have hu : l.units = 1 := by rw [hunits, he']
    have hch : 0 ≤ l.charges := by rw [hcharges, he']; exact chargeOf_nonneg _
    have hc : l.cpt ≠ "" := by rw [hcpt, he']; exact cptSearch_ne_empty hs
    have hbasic : lineBasicIssues l = [] := by
      unfold lineBasicIssues
      rw [if_neg hc, if_neg (by rw [hu]; exact (by norm_num : ¬((1 : Int) ≤ 0))),
        if_neg (not_lt.mpr hch)]
      rfl
    refine ⟨hu, hch, hptr, hbasic, ?_⟩
    intro hicd
    unfold analyzeIssues
    rw [if_neg hicd]
    have hmem : ("Line " ++ toString l.line_number
        ++ ": No diagnosis pointers linked, even though ICD-10 codes were found.")
        ∈ (extractClaim d b).lines.flatMap pointerIssue := by
      rw [List.mem_flatMap]
      refine ⟨l, hl, ?_⟩
      unfold pointerIssue
      rw [if_pos hptr]
      exact List.mem_singleton.mpr rfl
    apply List.mem_append_left
    apply List.mem_append_right
    exact hmem

/-- Witness for C10 at a concrete parse with one CPT line and one ICD
code. -/
theorem claim_C10_witness :
    ("Line " ++ toString (1 : Int)
        ++ ": No diagnosis pointers linked, even though ICD-10 codes were found.")
      ∈ analyzeIssues (extractClaim [] ["M25.511", "99213 25 LT 150.00"]) :=
  (claim_C10 [] ["M25.511", "99213 25 LT 150.00"]
    ⟨1, "99213", ["25", "LT", "00"], [], 1, chargeOf "99213 25 LT 150.00"⟩
    (List.mem_cons_self _ _)).2.2.2.2 (by decide)

end HcfaOcr
